import Mathlib

/-!
Verification of the vband CW timing/decoding engine.

Shallow embedding of the timing, decoding and keying logic of the `vband`
package (`src/vband/config.py`, `src/vband/decoder.py`, `src/vband/keyer.py`).
Python floats are modelled as exact rationals (`ℚ`); Python `int` as `ℤ`/`ℕ`.
Threading constructs (the flush `Timer`, locks, queues) are concurrency
machinery outside the pure decoding functions and are not part of the state:
each embedded function is the pure state transformation the corresponding
Python method performs on the decoder's fields.
-/

namespace VBand

set_option maxRecDepth 100000

/-- Python's built-in `round`: round half to even (banker's rounding). -/
def pyRound (x : ℚ) : ℤ :=
  let f := ⌊x⌋
  let r := x - f
  if r < 1/2 then f
  else if 1/2 < r then f + 1
  else if Even f then f else f + 1

/-- `VBandConfig` (config.py): the timing-relevant fields.  Defaults:
`dit_duration = 0.06`, `char_space_threshold = 3.0`, `word_space_threshold = 7.0`,
`auto_wpm = True`. -/
structure VBandConfig where
  dit_duration : ℚ := 3/50
  char_space_threshold : ℚ := 3
  word_space_threshold : ℚ := 7
  auto_wpm : Bool := true
deriving DecidableEq

/-- `VBandConfig.wpm_to_dit_duration`: `1.2 / wpm`. -/
def VBandConfig.wpm_to_dit_duration (_c : VBandConfig) (wpm : ℤ) : ℚ :=
  (6/5) / wpm

/-- `VBandConfig.dit_duration_to_wpm`: `round(1.2 / dit_duration)`. -/
def VBandConfig.dit_duration_to_wpm (_c : VBandConfig) (dit_duration : ℚ) : ℤ :=
  pyRound ((6/5) / dit_duration)

/-- `VBandConfig.char_space_duration` property: `dit_duration * char_space_threshold`. -/
def VBandConfig.char_space_duration (c : VBandConfig) : ℚ :=
  c.dit_duration * c.char_space_threshold

/-- `VBandConfig.word_space_duration` property: `dit_duration * word_space_threshold`. -/
def VBandConfig.word_space_duration (c : VBandConfig) : ℚ :=
  c.dit_duration * c.word_space_threshold

lemma pyRound_intCast (n : ℤ) : pyRound (n : ℚ) = n := by
  unfold pyRound
  have h1 : ⌊(n : ℚ)⌋ = n := Int.floor_intCast n
  simp only [h1, sub_self]
  norm_num

/-- The International Morse Code table `MORSE_CODE` (decoder.py), as the literal
association list in source order.  The Python source lists the keys
`.-.-.` and `-...-` twice (once as `+`, `=` and once as the prosigns
`<AR>`, `<BT>`); Python dict-literal semantics keep the LAST value. -/
def MORSE_CODE : List (String × String) :=
  [(".-", "A"), ("-...", "B"), ("-.-.", "C"), ("-..", "D"), (".", "E"),
   ("..-.", "F"), ("--.", "G"), ("....", "H"), ("..", "I"), (".---", "J"),
   ("-.-", "K"), (".-..", "L"), ("--", "M"), ("-.", "N"), ("---", "O"),
   (".--.", "P"), ("--.-", "Q"), (".-.", "R"), ("...", "S"), ("-", "T"),
   ("..-", "U"), ("...-", "V"), (".--", "W"), ("-..-", "X"), ("-.--", "Y"),
   ("--..", "Z"),
   ("-----", "0"), (".----", "1"), ("..---", "2"), ("...--", "3"),
   ("....-", "4"), (".....", "5"), ("-....", "6"), ("--...", "7"),
   ("---..", "8"), ("----.", "9"),
   (".-.-.-", "."), ("--..--", ","), ("..--..", "?"), (".----.", "\x27"),
   ("-.-.--", "!"), ("-..-.", "/"), ("-.--.", "("), ("-.--.-", ")"),
   (".-...", "&"), ("---...", ":"), ("-.-.-.", ";"), ("-...-", "="),
   (".-.-.", "+"), ("-....-", "-"), ("..--.-", "_"), (".-..-.", "\x22"),
   ("...-..-", "$"), (".--.-.", "@"),
   ("...-.-", "<SK>"), (".-.-.", "<AR>"), ("-...-", "<BT>"),
   ("-.-.-", "<KA>"), ("...-.", "<VE>"), (".......", "<ERROR>")]

/-- Python `dict(...).get(k)` for a dict built from an association-list
literal: the last binding of a key wins. -/
def dictGet (l : List (String × String)) (k : String) : Option String :=
  (l.reverse.find? (fun p => p.1 == k)).map (fun p => p.2)

/-- Python `dict.get(k, default)`. -/
def dictGetD (l : List (String × String)) (k : String) (d : String) : String :=
  (dictGet l k).getD d

/-- The binary tree-encoded morse table `MORSE_TREE` (decoder.py), copied
byte-for-byte from the three concatenated string literals. -/
def MORSE_TREE : String :=
  "**ETIANMSURWDKGOHVF\x9cL\xc4PJBXCYZQ\xd6\xe454\x9d3\xc9*\xc22&\xc8+*\xde\xc3\xf434" ++
  "16=/*\xc6^(*7\xbb\xe3\xd18*90" ++
  "*****|******?_****\x22*\xb6.****@***\x27**-********;!*)****\xb9,****:*******"

/-- `CWElement` (decoder.py). -/
structure CWElement where
  is_dit : Bool
  duration : ℚ
  timestamp : ℚ
deriving DecidableEq

/-- `CWElement.to_morse`. -/
def CWElement.to_morse (e : CWElement) : String :=
  if e.is_dit then "." else "-"

/-- One entry of `SpaceMarkDecoder.history`: dict with keys
`space_type`, `space_duration`, `mark_type`, `mark_duration`. -/
structure HistEntry where
  space_type : Option ℕ
  space_duration : ℚ
  mark_type : ℕ
  mark_duration : ℚ
deriving DecidableEq

/-- The mutable fields of `SpaceMarkDecoder` (decoder.py).  The flush
`threading.Timer` and its lock are concurrency machinery and carry no data
read by the decoding functions, so they are not part of the embedded state. -/
structure SMState where
  dit_length : ℚ
  last_mark : ℚ
  char_space : ℚ
  morse_ch : ℕ
  decoded_text : String
  history : List HistEntry
  save_space_type : Option ℕ
  save_space_duration : ℚ
deriving DecidableEq

/-- `SpaceMarkDecoder.__init__`: `dit_length = config.dit_duration * 1000`,
`last_mark = dit_length * 1.2`, `char_space = dit_length * 3`, `morse_ch = 1`. -/
def initSM (c : VBandConfig) : SMState :=
  let d := c.dit_duration * 1000
  { dit_length := d
    last_mark := d * (6/5)
    char_space := d * 3
    morse_ch := 1
    decoded_text := ""
    history := []
    save_space_type := none
    save_space_duration := 0 }

/-- `SpaceMarkDecoder._add_to_history`. -/
def addToHistory (st : SMState) (type_ : ℕ) (duration : ℚ) (is_mark : Bool) :
    SMState :=
  if is_mark then
    { st with
      history := st.history ++
        [⟨st.save_space_type, st.save_space_duration, type_, duration⟩]
      save_space_type := none
      save_space_duration := 0 }
  else
    { st with save_space_type := some type_, save_space_duration := duration }

/-- `SpaceMarkDecoder._flush_character`: index 1 flushes to nothing; indices
`0x89` and `0xc5` are the special-cased `$` and `~`; otherwise the index is
looked up in `MORSE_TREE` when in range, and `*` is the placeholder. -/
def smFlushCharacter (st : SMState) : Option String × SMState :=
  if st.morse_ch ≤ 1 then (none, st)
  else
    let ch : String :=
      if st.morse_ch = 0x89 then "$"
      else if st.morse_ch = 0xc5 then "~"
      else if st.morse_ch < MORSE_TREE.length then
        (MORSE_TREE.data.getD st.morse_ch (Char.ofNat 42)).toString
      else "*"
    (some ch, { st with decoded_text := st.decoded_text ++ ch, morse_ch := 1 })

/-- `SpaceMarkDecoder._decode_space`.  `space_type` codes as in the source:
2 = INTER_ELEMENT, 3 = INTER_CHAR, 4 = INTER_WORD. -/
def decodeSpace (st : SMState) (duration : ℚ) : Option String × SMState :=
  if duration > st.dit_length * 2 then
    let flushed := smFlushCharacter st
    let result := flushed.1
    let st1 := flushed.2
    let word_space := (st1.char_space / 3) * (11/2)
    let max_time : ℚ := 3000
    if duration ≥ word_space ∨ duration ≥ max_time then
      let result' : Option String :=
        match result with
        | some r => some (r ++ " ")
        | none => some " "
      let st2 := { st1 with char_space := st1.char_space * (103/100) }
      (result', addToHistory st2 4 duration false)
    else
      let st2 :=
        if duration < st1.char_space then
          { st1 with char_space := st1.char_space * (1/2) + duration * (1/2) }
        else
          { st1 with char_space := st1.char_space * (4/5) + duration * (1/5) }
      (result, addToHistory st2 3 duration false)
  else
    (none, addToHistory st 2 duration false)

/-- `SpaceMarkDecoder._decode_mark`.  `mark_type`: 0 = DIT, 1 = DAH.  The
8-dit flush timer armed at the end is concurrency machinery and not part of
the pure state transformation. -/
def decodeMark (st : SMState) (duration : ℚ) : SMState :=
  let st1 := { st with morse_ch := st.morse_ch * 2 }
  let dah := duration > st1.dit_length * (17/10)
  let mark_type : ℕ := if dah then 1 else 0
  let st2 := if dah then { st1 with morse_ch := st1.morse_ch + 1 } else st1
  let st3 :=
    if duration > 2 * st2.last_mark ∨ st2.last_mark > 2 * duration then
      let new_dit := ((st2.last_mark + duration) / 4 + st2.dit_length) / 2
      let st' := { st2 with dit_length := new_dit }
      if st'.char_space < st'.dit_length * (5/2) then
        { st' with char_space := st'.dit_length * (5/2) }
      else st'
    else st2
  let st4 := { st3 with last_mark := duration }
  addToHistory st4 mark_type duration true

/-- `SpaceMarkDecoder.decode_space_mark`: process the space (producing the
returned characters), then the mark. -/
def decodeSpaceMark (st : SMState) (space_ms mark_ms : ℚ) :
    Option String × SMState :=
  ((decodeSpace st space_ms).1, decodeMark (decodeSpace st space_ms).2 mark_ms)

/-- The binary-tree encoding rule for a morse pattern (start at 1; per symbol
double, plus one for a dash), as in the spec and `test_spacemark.py`. -/
def morseToTreeIndex (p : String) : ℕ :=
  p.data.foldl (fun i c => 2 * i + (if c = '-' then 1 else 0)) 1

/-- Looking an accumulated tree index up exactly the way
`SpaceMarkDecoder._flush_character` does, on a fresh decoder whose
`morse_ch` has been driven to that index. -/
def flushLookup (i : ℕ) : Option String :=
  (smFlushCharacter { initSM {} with morse_ch := i }).1

/-- The defined Morse-table entries whose tree encoding round-trips through
`SpaceMarkDecoder._flush_character`: the 26 letters, the digits 2, 3, 4, 5,
`&`, and `$` (the latter via the special-cased index `0x89`). -/
def goodPatterns : List String :=
  [".-", "-...", "-.-.", "-..", ".", "..-.", "--.", "....", "..", ".---",
   "-.-", ".-..", "--", "-.", "---", ".--.", "--.-", ".-.", "...", "-",
   "..-", "...-", ".--", "-..-", "-.--", "--..", "..---", "...--", "....-",
   ".....", ".-...", "...-..-"]

/-- `PaddleEvent` (paddle.py). -/
structure PaddleEvent where
  is_dit : Bool
  is_pressed : Bool
  timestamp : ℚ
deriving DecidableEq

/-- The mutable fields of `CWDecoder` (decoder.py): the two press-time slots
(one per channel, keyed by `is_dit`), the `deque(maxlen=10)` of recent
`(duration, is_dit)` observations (most recent last), and the shared config
(whose `dit_duration` the estimator may overwrite). -/
structure CWDecoderState where
  config : VBandConfig
  press_time_dit : Option ℚ
  press_time_dah : Option ℚ
  recent_durations : List (ℚ × Bool)
deriving DecidableEq

/-- `CWDecoder.__init__`: both press slots empty, empty history. -/
def initCW (c : VBandConfig) : CWDecoderState :=
  { config := c, press_time_dit := none, press_time_dah := none
    recent_durations := [] }

/-- Read the press slot for a channel (`_press_time[key_type]`). -/
def CWDecoderState.pressTime (st : CWDecoderState) (is_dit : Bool) : Option ℚ :=
  if is_dit then st.press_time_dit else st.press_time_dah

/-- Write the press slot for a channel. -/
def CWDecoderState.setPressTime (st : CWDecoderState) (is_dit : Bool)
    (v : Option ℚ) : CWDecoderState :=
  if is_dit then { st with press_time_dit := v } else { st with press_time_dah := v }

/-- `collections.deque(maxlen=10).append`: append on the right, discarding
from the left once the length exceeds 10. -/
def dequePush10 (l : List (ℚ × Bool)) (x : ℚ × Bool) : List (ℚ × Bool) :=
  let l' := l ++ [x]
  l'.drop (l'.length - 10)

/-- Python `sorted` on rationals (ascending insertion sort). -/
def pyInsertSorted (x : ℚ) : List ℚ → List ℚ
  | [] => [x]
  | y :: ys => if x ≤ y then x :: y :: ys else y :: pyInsertSorted x ys

/-- Python `sorted` on rationals. -/
def pySorted (l : List ℚ) : List ℚ :=
  l.foldl (fun acc x => pyInsertSorted x acc) []

/-- `CWDecoder._update_timing`: append `(duration, is_dit)` to the bounded
deque, collect the dit durations still in the deque, and once at least 3 are
present blend the current dit length with their (upper) median, committing
only when the relative change exceeds 10%. -/
def updateTiming (st : CWDecoderState) (duration : ℚ) (is_dit : Bool) :
    CWDecoderState :=
  let recent := dequePush10 st.recent_durations (duration, is_dit)
  let st1 := { st with recent_durations := recent }
  let dit_durations := (recent.filter (fun p => p.2)).map (fun p => p.1)
  if 3 ≤ dit_durations.length then
    let sorted_dits := pySorted dit_durations
    let median_dit := sorted_dits.getD (sorted_dits.length / 2) 0
    let current_dit := st1.config.dit_duration
    let new_dit := current_dit * (7/10) + median_dit * (3/10)
    if |new_dit - current_dit| / current_dit > 1/10 then
      { st1 with config := { st1.config with dit_duration := new_dit } }
    else st1
  else st1

/-- `CWDecoder.process_event`: a press records the timestamp in the
channel's slot; a release with an empty slot is ignored; a release with a
matching press emits the completed `CWElement` (after the adaptive-timing
update when `auto_wpm` is set). -/
def processEvent (st : CWDecoderState) (ev : PaddleEvent) :
    CWDecoderState × Option CWElement :=
  if ev.is_pressed then
    (st.setPressTime ev.is_dit (some ev.timestamp), none)
  else
    match st.pressTime ev.is_dit with
    | none => (st, none)
    | some press_time =>
        let duration := ev.timestamp - press_time
        let st1 := st.setPressTime ev.is_dit none
        let st2 := if st1.config.auto_wpm then updateTiming st1 duration ev.is_dit
                   else st1
        (st2, some ⟨ev.is_dit, duration, press_time⟩)

/-- The mutable fields of `MorseDecoder` (decoder.py): the accumulated
dot/dash symbols and the timestamp of the last element. -/
structure MorseDecoderState where
  config : VBandConfig
  current_char : List String
  last_element_time : Option ℚ
deriving DecidableEq

/-- `MorseDecoder._flush_character`: decode the accumulated pattern through
the Morse table (an unmatched pattern yields `<pattern>`), emptying the
buffer; an empty buffer flushes to nothing. -/
def mFlushCharacter (st : MorseDecoderState) : Option String × MorseDecoderState :=
  if st.current_char.isEmpty then (none, st)
  else
    let morse_code := String.join st.current_char
    let ch := dictGetD MORSE_CODE morse_code ("<" ++ morse_code ++ ">")
    (some ch, { st with current_char := [] })

/-- `MorseDecoder.process_element`.  The `current_time` argument only
defaults the unused wall clock and plays no role in this method.  Note the
guard `if result` in the word branch tests Python truthiness: `None` (and
only `None`, since the table's values are non-empty) selects the bare
space. -/
def processElement (st : MorseDecoderState) (element : CWElement) :
    Option String × MorseDecoderState :=
  match st.last_element_time with
  | some lastT =>
      let gap := element.timestamp - lastT
      if gap ≥ st.config.word_space_duration then
        let flushed := mFlushCharacter st
        let st1 := { flushed.2 with
          current_char := [element.to_morse]
          last_element_time := some element.timestamp }
        (match flushed.1 with
         | some r => some (r ++ " ")
         | none => some " ", st1)
      else if gap ≥ st.config.char_space_duration then
        let flushed := mFlushCharacter st
        let st1 := { flushed.2 with
          current_char := [element.to_morse]
          last_element_time := some element.timestamp }
        (flushed.1, st1)
      else
        (none, { st with
          current_char := st.current_char ++ [element.to_morse]
          last_element_time := some element.timestamp })
  | none =>
      (none, { st with
        current_char := st.current_char ++ [element.to_morse]
        last_element_time := some element.timestamp })

/-- The Mode-B relevant fields of `IambicKeyer` (keyer.py):
`_last_was_dit` and `_squeeze_memory`. -/
structure IambicState where
  last_was_dit : Bool
  squeeze_memory : Bool
deriving DecidableEq

/-- One pass of `IambicKeyer._keyer_loop` over a snapshot of the paddle
state: `_get_next_element_mode_b` (which updates the squeeze memory)
followed by the loop's `_last_was_dit := is_dit` update when an element was
produced.  `some true` is a dit, `some false` a dah. -/
def iambicStep (st : IambicState) (dit_pressed dah_pressed : Bool) :
    IambicState × Option Bool :=
  let both_pressed := dit_pressed && dah_pressed
  let st := if both_pressed then { st with squeeze_memory := true } else st
  if both_pressed then
    let e := !st.last_was_dit
    ({ st with last_was_dit := e }, some e)
  else if st.squeeze_memory && (dit_pressed || dah_pressed) then
    let st := { st with squeeze_memory := false }
    let e := if dit_pressed then
               (if st.last_was_dit then false else true)
             else
               (if !st.last_was_dit then true else false)
    ({ st with last_was_dit := e }, some e)
  else if !dit_pressed && !dah_pressed then
    ({ st with squeeze_memory := false }, none)
  else if dit_pressed then
    ({ st with last_was_dit := true }, some true)
  else
    ({ st with last_was_dit := false }, some false)

/-- Iterate `iambicStep` with both paddles held, collecting the emitted
element types in order. -/
def runBothHeld (st : IambicState) : ℕ → IambicState × List Bool
  | 0 => (st, [])
  | n + 1 =>
      let step := iambicStep st true true
      let rest := runBothHeld step.1 n
      (rest.1, (match step.2 with | some e => [e] | none => []) ++ rest.2)

/-- The strictly alternating boolean sequence of length `n` starting at `b`. -/
def altList (b : Bool) : ℕ → List Bool
  | 0 => []
  | n + 1 => b :: altList (!b) n

/-! ## Theorems -/

lemma smFlush_char_space (st : SMState) :
    (smFlushCharacter st).2.char_space = st.char_space := by
  unfold smFlushCharacter; split_ifs <;> rfl

lemma smFlush_dit_length (st : SMState) :
    (smFlushCharacter st).2.dit_length = st.dit_length := by
  unfold smFlushCharacter; split_ifs <;> rfl

lemma decodeSpace_save_type (st : SMState) (s : ℚ) :
    (decodeSpace st s).2.save_space_type =
      some (if s ≤ st.dit_length * 2 then 2
            else if (st.char_space / 3) * (11/2) ≤ s ∨ 3000 ≤ s then 4
            else 3) := by
  simp only [decodeSpace, addToHistory, smFlush_char_space]
  split_ifs with h1 h2 h3 h4 h5 h6 h7 <;>
    simp_all <;> linarith

/-- C1, counterexample.  Starting from the freshly constructed decoder with
the default config (`dit_length = 60`, `char_space = 180`, where the
invariant `char_space ≥ 2.5 × dit_length` holds), the reachable state after
`decode_space_mark(121, 72)` still satisfies the invariant
(`char_space = 150.5`), but a second `decode_space_mark(121, 72)` runs the
inter-character blend down to `char_space = 135.75 < 150 = 2.5 × dit_length`:
the invariant is not preserved by every adaptive update. -/
theorem c1_invariant_not_preserved :
    (initSM {}).char_space ≥ (initSM {}).dit_length * (5/2) ∧
    (decodeSpaceMark (initSM {}) 121 72).2.char_space ≥
      (decodeSpaceMark (initSM {}) 121 72).2.dit_length * (5/2) ∧
    ¬ ((decodeSpaceMark (decodeSpaceMark (initSM {}) 121 72).2 121 72).2.char_space ≥
       (decodeSpaceMark (decodeSpaceMark (initSM {}) 121 72).2 121 72).2.dit_length * (5/2)) := by
  refine ⟨?_, ?_, ?_⟩ <;>
    norm_num [initSM, decodeSpaceMark, decodeSpace, decodeMark, smFlushCharacter,
      addToHistory]

/-- C1, amended.  The invariant `char_space ≥ 2.5 × dit_length` is
re-established by the mark step whenever the dit re-anchoring fires (the new
and previous mark differ by a ratio strictly greater than 2); it is not an
invariant of every adaptive update, since the inter-character blend of the
space step can leave `char_space` below `2.5 × dit_length` (see the
counterexample). -/
theorem c1_reanchor_enforces_invariant (st : SMState) (m : ℚ)
    (h : m > 2 * st.last_mark ∨ st.last_mark > 2 * m) :
    (decodeMark st m).char_space ≥ (decodeMark st m).dit_length * (5/2) := by
  unfold decodeMark addToHistory
  dsimp only
  split_ifs with h1 h2 h3 h4 <;> (dsimp only; linarith)

/-- C1, amended, witness at `dit_length = 80`, `last_mark = 120`,
`mark = 50` (ratio 2.4 > 2). -/
theorem c1_reanchor_enforces_invariant_witness :
    (decodeMark ⟨80, 120, 100, 1, "", [], none, 0⟩ 50).char_space ≥
      (decodeMark ⟨80, 120, 100, 1, "", [], none, 0⟩ 50).dit_length * (5/2) :=
  c1_reanchor_enforces_invariant _ _ (Or.inr (by norm_num))

/-- C2, counterexample.  With `dit_length = 80`, `last_mark = 120` and a new
mark of 60 ms the ratio is exactly 2, and the code's strict comparisons
(`duration > 2*last_mark or last_mark > 2*duration`) do NOT fire: the dit
length stays 80 instead of becoming `((120+60)/4 + 80)/2 = 62.5`. -/
theorem c2_ratio_exactly_two_does_not_reanchor :
    (decodeMark ⟨80, 120, 240, 1, "", [], none, 0⟩ 60).dit_length = 80 ∧
    ((80 : ℚ) ≠ ((120 + 60) / 4 + 80) / 2) := by
  refine ⟨?_, by norm_num⟩
  norm_num [decodeMark, addToHistory]

/-- C2, amended.  The dit re-anchoring fires exactly when the new mark and
the previous mark differ by a ratio strictly greater than 2, and then sets
`dit_length = ((prevMark + markMs)/4 + ditLength)/2`; at ratio exactly 2 no
re-anchoring occurs (see the counterexample).  For the strict-ratio instance
`ditLength = 80`, `lastMark = 120`, `newMark = 50` the new dit length is
`((120+50)/4 + 80)/2 = 61.25`, strictly less than 80. -/
theorem c2_reanchor_formula (st : SMState) (m : ℚ)
    (h : m > 2 * st.last_mark ∨ st.last_mark > 2 * m) :
    (decodeMark st m).dit_length = ((st.last_mark + m) / 4 + st.dit_length) / 2 := by
  unfold decodeMark addToHistory
  dsimp only
  split_ifs <;> dsimp only

/-- C2, amended, witness: `ditLength = 80`, `lastMark = 120`, `newMark = 50`
(ratio 2.4 > 2) gives `((120+50)/4 + 80)/2 = 61.25 < 80`. -/
theorem c2_reanchor_formula_witness :
    (decodeMark ⟨80, 120, 240, 1, "", [], none, 0⟩ 50).dit_length =
      ((120 + 50) / 4 + 80) / 2 ∧
    (((120 : ℚ) + 50) / 4 + 80) / 2 < 80 :=
  ⟨c2_reanchor_formula _ _ (Or.inr (by norm_num)), by norm_num⟩

/-- C6.  The space step classifies a space as intra-character
(`space_type` 2, INTER_ELEMENT) exactly when `s ≤ 2 × dit_length`; as
inter-word (`space_type` 4) exactly when it exceeds `2 × dit_length` and
reaches `(char_space/3) × 5.5` or the 3000 ms ceiling; and as
inter-character (`space_type` 3) otherwise.  Concretely, with
`dit_length = 80` and `char_space = 240`: a 70 ms space is intra-character,
250 ms is inter-character, 500 ms is inter-word (word threshold
`(240/3) × 5.5 = 440`); the inter-word space appends `" "` to the returned
value and multiplies `char_space` by 1.03, and with a pending `E` the
inter-character space flushes it. -/
theorem c6_space_classification :
    (∀ (st : SMState) (s : ℚ),
      ((decodeSpace st s).2.save_space_type = some 2 ↔ s ≤ st.dit_length * 2) ∧
      ((decodeSpace st s).2.save_space_type = some 4 ↔
        (st.dit_length * 2 < s ∧ ((st.char_space / 3) * (11/2) ≤ s ∨ 3000 ≤ s))) ∧
      ((decodeSpace st s).2.save_space_type = some 3 ↔
        (st.dit_length * 2 < s ∧ ¬ ((st.char_space / 3) * (11/2) ≤ s ∨ 3000 ≤ s)))) ∧
    (decodeSpace ⟨80, 96, 240, 1, "", [], none, 0⟩ 70).2.save_space_type = some 2 ∧
    (decodeSpace ⟨80, 96, 240, 1, "", [], none, 0⟩ 250).2.save_space_type = some 3 ∧
    (decodeSpace ⟨80, 96, 240, 1, "", [], none, 0⟩ 500).2.save_space_type = some 4 ∧
    ((240 : ℚ) / 3) * (11/2) = 440 ∧
    (decodeSpace ⟨80, 96, 240, 1, "", [], none, 0⟩ 500).1 = some " " ∧
    (decodeSpace ⟨80, 96, 240, 1, "", [], none, 0⟩ 500).2.char_space = 240 * (103/100) ∧
    (decodeSpace ⟨80, 96, 240, 2, "", [], none, 0⟩ 250).1 = some "E" := by
  refine ⟨?_, ?_, ?_, ?_, by norm_num, ?_, ?_, ?_⟩
  · intro st s
    simp only [decodeSpace_save_type]
    refine ⟨?_, ?_, ?_⟩ <;> split_ifs with h1 h2 <;> simp_all
  · simp only [decodeSpace_save_type]; norm_num
  · simp only [decodeSpace_save_type]; norm_num
  · simp only [decodeSpace_save_type]; norm_num
  · norm_num [decodeSpace, smFlushCharacter, addToHistory]
  · norm_num [decodeSpace, smFlushCharacter, addToHistory]
  · norm_num [decodeSpace, smFlushCharacter, addToHistory, MORSE_TREE]
    decide

/-- C3, counterexample.  The defined Morse-table entry `-----` (the digit
`0`) encodes to tree index 63, but `SpaceMarkDecoder._flush_character`
yields the placeholder `*` there, not `0`: the tree table's region beyond
index 46 is shifted by the two spurious characters `34`, so the binary-tree
round trip fails for this defined entry. -/
theorem c3_tree_roundtrip_fails_for_zero :
    morseToTreeIndex "-----" = 63 ∧
    dictGet MORSE_CODE "-----" = some "0" ∧
    flushLookup (morseToTreeIndex "-----") = some "*" ∧
    (some "*" : Option String) ≠ some "0" := by
  refine ⟨by decide, by decide, by decide, by decide⟩

/-- C3, amended.  Encoding a defined Morse-table pattern by the binary-tree
rule and looking the index up via the adaptive decoder's flush reproduces the
table's character exactly for the 32 entries in `goodPatterns` (the 26
letters, the digits 2–5, `&`, and `$`); every other defined entry (digits
0, 1, 6–9, the punctuation, and the prosigns) yields a different string. -/
theorem c3_tree_roundtrip_characterization :
    (MORSE_CODE.map Prod.fst).all
      (fun p =>
        (flushLookup (morseToTreeIndex p) == dictGet MORSE_CODE p) ==
          goodPatterns.contains p) = true := by
  decide

/-- C9.  For every integer WPM `w` with `5 ≤ w ≤ 60`,
`dit_duration_to_wpm (wpm_to_dit_duration w) = w`: the conversion to a dit
duration followed by the rounded inverse conversion is the identity. -/
theorem c9_wpm_roundtrip (c : VBandConfig) (w : ℤ) (h5 : 5 ≤ w) (h60 : w ≤ 60) :
    c.dit_duration_to_wpm (c.wpm_to_dit_duration w) = w := by
  have hw : (w : ℚ) ≠ 0 := by
    have : (0 : ℤ) < w := by omega
    exact_mod_cast this.ne'
  unfold VBandConfig.dit_duration_to_wpm VBandConfig.wpm_to_dit_duration
  have harg : (6/5 : ℚ) / ((6/5 : ℚ) / (w : ℚ)) = (w : ℚ) := by
    field_simp
    ring
  rw [harg, pyRound_intCast]

/-- C9, witness at `w = 20`. -/
theorem c9_wpm_roundtrip_witness :
    ({} : VBandConfig).dit_duration_to_wpm
      (({} : VBandConfig).wpm_to_dit_duration 20) = 20 :=
  c9_wpm_roundtrip {} 20 (by decide) (by decide)

lemma updateTiming_recent (st : CWDecoderState) (d : ℚ) (b : Bool) :
    (updateTiming st d b).recent_durations =
      dequePush10 st.recent_durations (d, b) := by
  unfold updateTiming
  dsimp only
  split_ifs <;> rfl

lemma foldl_updateTiming_recent (l : List (ℚ × Bool)) :
    ∀ st : CWDecoderState,
      ((l.foldl (fun s p => updateTiming s p.1 p.2) st).recent_durations) =
        l.foldl (fun r p => dequePush10 r p) st.recent_durations := by
  induction l with
  | nil => intro st; rfl
  | cons x xs ih =>
      intro st
      simp only [List.foldl_cons, ih, updateTiming_recent]

/-- C4, counterexample.  Feed three dits (0.1 s) and then ten dahs (0.3 s)
through `_update_timing`: the `deque(maxlen=10)` holds the last 10
observations of EITHER kind, so the ten dahs evict all three dit
observations — the history does not hold the last 10 dit observations
(which would be all 3 here), it holds none of them. -/
theorem c4_dits_evicted_by_dahs :
    (let seq : List (ℚ × Bool) :=
       [(1/10, true), (1/10, true), (1/10, true)] ++ List.replicate 10 (3/10, false)
     let final := seq.foldl (fun s p => updateTiming s p.1 p.2) (initCW {})
     (final.recent_durations.filter (fun p => p.2)).length = 0 ∧
     (seq.filter (fun p => p.2)).length = 3) := by
  dsimp only
  rw [foldl_updateTiming_recent]
  exact ⟨by decide, by decide⟩

/-- C4, amended.  Every completed element's duration — dah as well as dit —
is appended to the bounded history, which holds the last 10 element
observations of either kind; the estimator then takes the dit observations
still among them, and once at least 3 are present blends their (upper)
median as `new = 0.7 × current + 0.3 × median`, committing to
`config.dit_duration` if and only if the relative change exceeds 10%. -/
theorem c4_update_timing_characterization (st : CWDecoderState) (d : ℚ) (b : Bool) :
    (updateTiming st d b).recent_durations =
      (st.recent_durations ++ [(d, b)]).rtake 10 ∧
    (updateTiming st d b).config.dit_duration =
      (let dits := (((st.recent_durations ++ [(d, b)]).rtake 10).filter
          (fun p => p.2)).map (fun p => p.1)
       let current := st.config.dit_duration
       let sorted_dits := pySorted dits
       let median := sorted_dits.getD (sorted_dits.length / 2) 0
       let new_dit := current * (7/10) + median * (3/10)
       if 3 ≤ dits.length ∧ |new_dit - current| / current > 1/10 then new_dit
       else current) := by
  have hpush : ∀ (l : List (ℚ × Bool)) (x : ℚ × Bool),
      dequePush10 l x = (l ++ [x]).rtake 10 := fun _ _ => rfl
  refine ⟨by rw [updateTiming_recent, hpush], ?_⟩
  unfold updateTiming
  dsimp only
  rw [hpush]
  split_ifs <;> first
    | rfl
    | tauto

/-- C5.  With a recorded previous element time, `process_element` returns
the flushed character plus a trailing space (just a space when nothing was
pending) and restarts the pattern when the gap reaches
`word_space_duration`; the flushed character alone (no trailing space) with
a restarted pattern when the gap reaches `char_space_duration` but not
`word_space_duration`; and `None` with the element's symbol appended
otherwise. -/
theorem c5_gap_classification (st : MorseDecoderState) (el : CWElement)
    (lastT : ℚ) (h : st.last_element_time = some lastT) :
    (st.config.word_space_duration ≤ el.timestamp - lastT →
       processElement st el =
         ((match (mFlushCharacter st).1 with
           | some r => some (r ++ " ")
           | none => some " "),
          { (mFlushCharacter st).2 with
            current_char := [el.to_morse]
            last_element_time := some el.timestamp })) ∧
    (st.config.char_space_duration ≤ el.timestamp - lastT →
     el.timestamp - lastT < st.config.word_space_duration →
       processElement st el =
         ((mFlushCharacter st).1,
          { (mFlushCharacter st).2 with
            current_char := [el.to_morse]
            last_element_time := some el.timestamp })) ∧
    (el.timestamp - lastT < st.config.char_space_duration →
     el.timestamp - lastT < st.config.word_space_duration →
       processElement st el =
         (none,
          { st with
            current_char := st.current_char ++ [el.to_morse]
            last_element_time := some el.timestamp })) := by
  refine ⟨fun h1 => ?_, fun h1 h2 => ?_, fun h1 h2 => ?_⟩ <;>
    simp only [processElement, h] <;>
    split_ifs <;>
    first
    | rfl
    | (exfalso; linarith)

/-- C5, witness: a pending `.` (the letter `E`) flushed by a dah arriving a
half second later under the default config (`word_space_duration = 0.42`):
the word branch fires and returns the flushed `E` plus a space. -/
theorem c5_gap_classification_witness :
    ((⟨{}, ["."], some 0⟩ : MorseDecoderState)).config.word_space_duration ≤
      ((⟨false, 3/20, 1/2⟩ : CWElement)).timestamp - 0 ∧
    processElement ⟨{}, ["."], some 0⟩ ⟨false, 3/20, 1/2⟩ =
      ((match (mFlushCharacter (⟨{}, ["."], some 0⟩ : MorseDecoderState)).1 with
        | some r => some (r ++ " ")
        | none => some " "),
       { (mFlushCharacter (⟨{}, ["."], some 0⟩ : MorseDecoderState)).2 with
         current_char := [CWElement.to_morse ⟨false, 3/20, 1/2⟩]
         last_element_time := some (1/2) }) := by
  have hword : ((⟨{}, ["."], some 0⟩ : MorseDecoderState)).config.word_space_duration ≤
      ((⟨false, 3/20, 1/2⟩ : CWElement)).timestamp - 0 := by
    norm_num [VBandConfig.word_space_duration]
  exact ⟨hword, (c5_gap_classification ⟨{}, ["."], some 0⟩ ⟨false, 3/20, 1/2⟩ 0 rfl).1 hword⟩

/-- C8.  A release event on a channel whose press slot is empty returns no
element and leaves the decoder state — both press slots, the duration
history and the config — entirely unchanged. -/
theorem c8_stray_release_ignored (st : CWDecoderState) (ev : PaddleEvent)
    (hrel : ev.is_pressed = false) (hslot : st.pressTime ev.is_dit = none) :
    processEvent st ev = (st, none) := by
  unfold processEvent
  rw [hrel, hslot]
  simp

/-- C8, witness: a dit-channel release at time 5 on a fresh decoder. -/
theorem c8_stray_release_ignored_witness :
    processEvent (initCW {}) ⟨true, false, 5⟩ = (initCW {}, none) :=
  c8_stray_release_ignored (initCW {}) ⟨true, false, 5⟩ rfl rfl

lemma runBothHeld_eq_altList (n : ℕ) :
    ∀ st : IambicState, (runBothHeld st n).2 = altList (!st.last_was_dit) n := by
  induction n with
  | zero => intro st; rfl
  | succ n ih =>
      intro st
      have hstep : iambicStep st true true =
          ({ last_was_dit := !st.last_was_dit, squeeze_memory := true },
           some (!st.last_was_dit)) := by
        simp [iambicStep]
      simp [runBothHeld, hstep, ih, altList]

lemma altList_length (b : Bool) (n : ℕ) : (altList b n).length = n := by
  induction n generalizing b with
  | zero => rfl
  | succ n ih => simp [altList, ih]

lemma altList_alternates (n : ℕ) :
    ∀ (b : Bool) (i : ℕ), i + 1 < n →
      (altList b n).getD (i + 1) false = !((altList b n).getD i false) := by
  induction n with
  | zero => intro b i hi; omega
  | succ n ih =>
      intro b i hi
      match i, hi with
      | 0, hi =>
          match n, hi with
          | m + 1, _ => simp [altList]
      | j + 1, hi =>
          have hj : j + 1 < n := by omega
          simpa [altList] using ih (!b) j hj

/-- C7.  Mode-B element selection (`_get_next_element_mode_b` plus the
loop's alternation update): (a) a run of `n ≥ 2` iterations with both
paddles held emits exactly `n` elements, at least two, whose types strictly
alternate; (b) from any state with squeeze memory set, one iteration with a
single paddle held emits exactly one element of the opposite type of the
last sent element and clears the memory, and once that paddle is also
released the keyer emits nothing (idle). -/
theorem c7_mode_b_squeeze :
    (∀ (st : IambicState) (n : ℕ), 2 ≤ n →
      (runBothHeld st n).2.length = n ∧
      2 ≤ (runBothHeld st n).2.length ∧
      ∀ i : ℕ, i + 1 < (runBothHeld st n).2.length →
        (runBothHeld st n).2.getD (i + 1) false =
          !((runBothHeld st n).2.getD i false)) ∧
    (∀ l : Bool,
      iambicStep ⟨l, true⟩ true false = (⟨!l, false⟩, some (!l)) ∧
      iambicStep ⟨l, true⟩ false true = (⟨!l, false⟩, some (!l)) ∧
      iambicStep ⟨l, false⟩ false false = (⟨l, false⟩, none)) := by
  constructor
  · intro st n hn
    refine ⟨?_, ?_, ?_⟩
    · rw [runBothHeld_eq_altList]; exact altList_length _ _
    · rw [runBothHeld_eq_altList, altList_length]; exact hn
    · intro i hi
      rw [runBothHeld_eq_altList] at hi ⊢
      exact altList_alternates n (!st.last_was_dit) i (by rwa [altList_length] at hi)
  · intro l
    cases l <;> exact ⟨by decide, by decide, by decide⟩

/-- C7, witness: three both-held iterations from `last_was_dit = true` with
clear memory give the alternating run dah, dit, dah. -/
theorem c7_mode_b_squeeze_witness :
    (runBothHeld ⟨true, false⟩ 3).2.length = 3 ∧
    (runBothHeld ⟨true, false⟩ 3).2.getD 1 false =
      !((runBothHeld ⟨true, false⟩ 3).2.getD 0 false) ∧
    iambicStep ⟨true, true⟩ true false = (⟨false, false⟩, some false) :=
  ⟨(c7_mode_b_squeeze.1 ⟨true, false⟩ 3 (by decide)).1,
   (c7_mode_b_squeeze.1 ⟨true, false⟩ 3 (by decide)).2.2 0 (by decide),
   (c7_mode_b_squeeze.2 true).1⟩

/-- C10.  The value returned by `decode_space_mark(space_ms, mark_ms)` does
not depend on `mark_ms`: the character flush is computed from the space and
the previously accumulated tree index before the mark is processed, so two
calls from equal states with the same space return the same result. -/
theorem c10_result_independent_of_mark (st : SMState) (s m₁ m₂ : ℚ) :
    (decodeSpaceMark st s m₁).1 = (decodeSpaceMark st s m₂).1 := rfl

end VBand


